import Mathlib

/-!
# Verification development for the engine's cross-thread pipelines

Shallow embedding of

* `lib/ui/painting/image_decoding.cc` (the decode pipeline: `DecodeImage`,
  `InvokeImageCallback`, `DecodeImageAndInvokeImageCallback`,
  `DecodeImageFromList`),
* `lib/ui/window/window.h` (the response-id counter of `Window`),
* `shell/platform/linux/platform_view_glfw.cc` (the mouse state machine of
  `PlatformViewGLFW`).

External collaborators (Skia, the Dart VM, GLFW, the clock) appear as
parameters or as values read from the environment; every call the code makes
into them is recorded in an explicit trace so that "no call is made" and
"exactly one call is made" are statements about lists.
-/

namespace cpp

/-! ## The C++ `int` (32 bits, two's complement) -/

/-- The 32 bits of an integer in two's complement, as a number below
`2 ^ 32`. -/
def toBits : Int → Nat
  | .ofNat n => n % 4294967296
  | .negSucc n => 4294967295 - n % 4294967296

/-- The `int` whose 32 bits are the low 32 bits of `p`: bit 31 is the sign. -/
def ofBits (p : Nat) : Int :=
  if p % 4294967296 < 2147483648 then Int.ofNat (p % 4294967296)
  else Int.negSucc (4294967295 - p % 4294967296)

/-- The value an `int` holds after a result `x` is stored into it: `x`
reduced modulo `2 ^ 32` into `-2 ^ 31 .. 2 ^ 31 - 1`. -/
def wrapInt (x : Int) : Int := ofBits (toBits x)

/-- Bitwise or: `a | b` on `int`. -/
def bitOr (a b : Int) : Int := ofBits (Nat.lor (toBits a) (toBits b))

/-- Bitwise and: `a & b` on `int`. -/
def bitAnd (a b : Int) : Int := ofBits (Nat.land (toBits a) (toBits b))

/-- Bitwise complement: `~a` on `int`. -/
def bitNot (a : Int) : Int := ofBits (Nat.xor (toBits a) 4294967295)

/-- Left shift: `a << n` on `int`, for a shift count the language defines
(`n` below 32). -/
def shl (a : Int) (n : Nat) : Int := wrapInt (a * 2 ^ n)

end cpp

namespace blink

/-! ## Data model of `image_decoding.cc` -/

/-- The four execution contexts of `flutter/common/threads.h`. -/
inductive Context where
  | Platform
  | UI
  | GPU
  | IOThread
  deriving DecidableEq, Repr

/-- One byte of a `std::vector<uint8_t>`. -/
abbrev Byte := Fin 256

/-- A non-null `sk_sp<SkData>`: it wraps the bytes it was made from. -/
structure SkData where
  bytes : List Byte
  deriving DecidableEq, Repr

/-- A non-null `SkImageGenerator`, identified by an opaque number. -/
structure SkImageGenerator where
  id : Nat
  deriving DecidableEq, Repr

/-- A non-null `SkImage`, identified by an opaque number. -/
structure SkImage where
  id : Nat
  deriving DecidableEq, Repr

/-- A `GrContext*` as returned by `ResourceContext::Get()`; `none` is the
null pointer. -/
abbrev GrContext := Option Nat

/-- The external imaging collaborator.  Each field is one of the functions
`DecodeImage` calls; `none` is the null pointer they may return. -/
structure Skia where
  MakeWithoutCopy : List Byte → Option SkData
  NewFromEncoded : SkData → Option SkImageGenerator
  ResourceContextGet : GrContext
  TextureImageCreate : GrContext → SkImageGenerator → Option SkImage
  BitmapImageCreate : SkImageGenerator → Option SkImage

/-- A call made by `DecodeImage`, in the order of the source text. -/
inductive DecodeCall where
  | TRACE_EVENT0
  | SkData_MakeWithoutCopy (bytes : List Byte)
  | SkImageGenerator_NewFromEncoded (data : SkData)
  | ResourceContext_Get
  | TextureImageCreate (context : GrContext) (generator : SkImageGenerator)
  | BitmapImageCreate (generator : SkImageGenerator)
  deriving DecidableEq, Repr

/-- Whether a call belongs to the external decode transformation (everything
except the tracing macro). -/
def DecodeCall.isDecodeTransformation : DecodeCall → Bool
  | .TRACE_EVENT0 => false
  | _ => true

/-- Embedding of `sk_sp<SkImage> DecodeImage(std::vector<uint8_t> buffer)`.
Returns the image (`none` is `nullptr`) and the calls made, oldest first. -/
def DecodeImage (skia : Skia) (buffer : List Byte) : Option SkImage × List DecodeCall :=
  let t0 := [DecodeCall.TRACE_EVENT0]
  if buffer.isEmpty then
    (none, t0)
  else
    let t1 := t0 ++ [DecodeCall.SkData_MakeWithoutCopy buffer]
    match skia.MakeWithoutCopy buffer with
    | none => (none, t1)
    | some sk_data =>
      let t2 := t1 ++ [DecodeCall.SkImageGenerator_NewFromEncoded sk_data]
      match skia.NewFromEncoded sk_data with
      | none => (none, t2)
      | some generator =>
        let context := skia.ResourceContextGet
        let t3 := t2 ++ [DecodeCall.ResourceContext_Get,
                         DecodeCall.TextureImageCreate context generator]
        match skia.TextureImageCreate context generator with
        | some image => (some image, t3)
        | none =>
          (skia.BitmapImageCreate generator, t3 ++ [DecodeCall.BitmapImageCreate generator])

/-- Identity of a `tonic::DartState` (one logic-context instance). -/
abbrev DartStateId := Nat

/-- A `Dart_Handle` as far as this file inspects it: whether
`Dart_IsClosure` holds and which Dart object it designates. -/
structure Dart_Handle where
  is_closure : Bool
  object : Nat
  deriving DecidableEq, Repr

/-- A heap-allocated `tonic::DartPersistentValue`: the allocation's identity,
the weak reference to the `DartState` it was created in, and the persistent
handle. -/
structure DartPersistentValue where
  id : Nat
  dart_state_ : DartStateId
  value : Dart_Handle
  deriving DecidableEq, Repr

/-- A `CanvasImage` object: the allocation's identity and the `SkImage` set
on it (`none` until `set_image`). -/
structure CanvasImage where
  id : Nat
  image : Option SkImage
  deriving DecidableEq, Repr

/-- A value passed to Dart: `Dart_Null()` or `ToDart(resultImage)`. -/
inductive DartValue where
  | Dart_Null
  | ToDart (resultImage : CanvasImage)
  deriving DecidableEq, Repr

/-- The closures this file posts to a task runner, defunctionalised: the
lambda posted by `DecodeImageFromList` and the lambda posted by
`DecodeImageAndInvokeImageCallback`, each with its captures. -/
inductive Task where
  | decodeAndInvoke (callback : DartPersistentValue) (buffer : List Byte)
  | invokeCallback (callback : DartPersistentValue) (image : Option SkImage)
  deriving DecidableEq, Repr

/-- The `DartPersistentValue` a task has captured. -/
def Task.callback : Task → DartPersistentValue
  | .decodeAndInvoke callback _ => callback
  | .invokeCallback callback _ => callback

/-- What can be observed of the pipeline. -/
inductive Effect where
  | Dart_ThrowException
  | PostTask (target : Context) (task : Task)
  | RunTask (task : Task)
  | Decode (call : DecodeCall)
  | DartInvoke (callback : DartPersistentValue) (args : List DartValue)
  deriving DecidableEq, Repr

/-- An effect together with the execution context it happened on. -/
structure Event where
  ctx : Context
  effect : Effect
  deriving DecidableEq, Repr

/-- The state the pipeline runs in: the live `DartState`s, the task queues of
`Threads::IO()` and `Threads::UI()` (head is the next task to run), the next
unused allocation identity, and the trace so far (oldest first). -/
structure World where
  live : List DartStateId
  io_queue : List Task
  ui_queue : List Task
  next_object : Nat
  trace : List Event
  deriving DecidableEq, Repr

/-- A world in which nothing has happened yet. -/
def World.init (live : List DartStateId) : World :=
  { live := live, io_queue := [], ui_queue := [], next_object := 0, trace := [] }

/-- Modelled from the spec: `callback->dart_state().get()` (`dart_persistent_value.h`
is not among the sources).  A continuation is "valid only while the
logic-context instance that created it is alive": the weak pointer resolves
only while the `DartState` is alive. -/
def DartPersistentValue.dart_state (w : World) (callback : DartPersistentValue) :
    Option DartStateId :=
  if callback.dart_state_ ∈ w.live then some callback.dart_state_ else none

/-- Modelled from the spec: `Threads::X()->PostTask(task)` called from context
`ctx` (`threads.h` is not among the sources).  "`post(context, task)` enqueues
`task` for asynchronous execution; FIFO order per context": the task goes to
the back of the target's queue and nothing runs inline. -/
def PostTask (ctx target : Context) (task : Task) (w : World) : World :=
  let w1 := { w with trace := w.trace ++ [⟨ctx, .PostTask target task⟩] }
  match target with
  | .IOThread => { w1 with io_queue := w1.io_queue ++ [task] }
  | .UI => { w1 with ui_queue := w1.ui_queue ++ [task] }
  | _ => w1

/-- Embedding of `void InvokeImageCallback(sk_sp<SkImage> image,
std::unique_ptr<DartPersistentValue> callback)`, running on context `ctx`. -/
def InvokeImageCallback (ctx : Context) (image : Option SkImage)
    (callback : DartPersistentValue) (w : World) : World :=
  match callback.dart_state w with
  | none => w
  | some _ =>
    match image with
    | none =>
      { w with trace := w.trace ++ [⟨ctx, .DartInvoke callback [DartValue.Dart_Null]⟩] }
    | some img =>
      let created : CanvasImage := { id := w.next_object, image := none }
      let resultImage : CanvasImage := { created with image := some img }
      { w with
        next_object := w.next_object + 1
        trace := w.trace ++ [⟨ctx, .DartInvoke callback [DartValue.ToDart resultImage]⟩] }

/-- Embedding of `void DecodeImageAndInvokeImageCallback(
std::unique_ptr<DartPersistentValue> callback, std::vector<uint8_t> buffer)`,
running on context `ctx`. -/
def DecodeImageAndInvokeImageCallback (skia : Skia) (ctx : Context)
    (callback : DartPersistentValue) (buffer : List Byte) (w : World) : World :=
  let decoded := DecodeImage skia buffer
  let w1 := { w with trace := w.trace ++ decoded.2.map (fun c => ⟨ctx, .Decode c⟩) }
  PostTask ctx .UI (.invokeCallback callback decoded.1) w1

/-- The `Dart_NativeArguments` of `decodeImageFromList`: the outcome of
converting argument 0 to a `Uint8List` (`none` when the converter sets
`exception`) and the handle of argument 1. -/
structure Dart_NativeArguments where
  list : Option (List Byte)
  callback_handle : Dart_Handle
  deriving DecidableEq, Repr

/-- Embedding of `void DecodeImageFromList(Dart_NativeArguments args)`, called by the
`DartState` `current` on context `ctx`. -/
def DecodeImageFromList (ctx : Context) (current : DartStateId)
    (args : Dart_NativeArguments) (w : World) : World :=
  match args.list with
  | none => { w with trace := w.trace ++ [⟨ctx, .Dart_ThrowException⟩] }
  | some list =>
    if !args.callback_handle.is_closure then
      { w with trace := w.trace ++ [⟨ctx, .Dart_ThrowException⟩] }
    else
      let callback : DartPersistentValue :=
        { id := w.next_object, dart_state_ := current, value := args.callback_handle }
      PostTask ctx .IOThread (.decodeAndInvoke callback list) { w with next_object := w.next_object + 1 }

/-- Running a posted closure on context `ctx`: the run is recorded, then the
body of the lambda is executed. -/
def Task.run (skia : Skia) (ctx : Context) (task : Task) (w : World) : World :=
  let w1 := { w with trace := w.trace ++ [⟨ctx, .RunTask task⟩] }
  match task with
  | .decodeAndInvoke callback buffer =>
    DecodeImageAndInvokeImageCallback skia ctx callback buffer w1
  | .invokeCallback callback image => InvokeImageCallback ctx image callback w1

/-- One scheduling step of the whole pipeline. -/
inductive Step where
  | request (current : DartStateId) (args : Dart_NativeArguments)
  | runIOTask
  | runUITask
  | teardown (state : DartStateId)
  deriving DecidableEq, Repr

/-- Modelled from the spec: the task dispatcher (`threads.h` and the task
runners are not among the sources).  "Tasks posted to the same context execute
in submission order; each task runs at most once": a logic context calls
`decodeImageFromList` (Dart code runs on `UI`), the `IO` or `UI` loop takes the
task at the head of its queue and runs it, or a `DartState` is destroyed. -/
def Step.apply (skia : Skia) (w : World) : Step → World
  | .request current args => DecodeImageFromList .UI current args w
  | .runIOTask =>
    match w.io_queue with
    | [] => w
    | task :: rest => task.run skia .IOThread { w with io_queue := rest }
  | .runUITask =>
    match w.ui_queue with
    | [] => w
    | task :: rest => task.run skia .UI { w with ui_queue := rest }
  | .teardown state => { w with live := w.live.filter (fun s => s != state) }

/-- Running a whole schedule. -/
def exec (skia : Skia) (w : World) (steps : List Step) : World :=
  steps.foldl (Step.apply skia) w

/-! ## Reading traces -/

/-- Whether an event is a call to `PostTask`. -/
def Event.isPostTask (e : Event) : Bool :=
  match e.effect with
  | .PostTask _ _ => true
  | _ => false

/-- A collaborator whose `SkData::MakeWithoutCopy` always returns null. -/
def skiaNoData : Skia :=
  { MakeWithoutCopy := fun _ => none
    NewFromEncoded := fun _ => some ⟨0⟩
    ResourceContextGet := none
    TextureImageCreate := fun _ _ => none
    BitmapImageCreate := fun g => some ⟨g.id⟩ }

/-- A collaborator that decodes every non-empty buffer through the bitmap
fallback (there is no resource context). -/
def skiaBitmap : Skia :=
  { MakeWithoutCopy := fun bytes => some ⟨bytes⟩
    NewFromEncoded := fun data => some ⟨data.bytes.length⟩
    ResourceContextGet := none
    TextureImageCreate := fun _ _ => none
    BitmapImageCreate := fun g => some ⟨g.id⟩ }

/-- What one trace event tells about one continuation: a task holding it was
posted from context `ctx` to `target`, a task holding it was run on `ctx`, or
it was invoked on `ctx`. -/
inductive Mark where
  | posted (ctx target : Context)
  | ran (ctx : Context)
  | invoked (ctx : Context)
  deriving DecidableEq, Repr

/-- The mark an event leaves on the continuation whose allocation identity is
`c`, if the event concerns it. -/
def Event.mark (c : Nat) (e : Event) : Option Mark :=
  match e.effect with
  | .PostTask target task => if task.callback.id = c then some (.posted e.ctx target) else none
  | .RunTask task => if task.callback.id = c then some (.ran e.ctx) else none
  | .DartInvoke callback _ => if callback.id = c then some (.invoked e.ctx) else none
  | _ => none

/-- Everything a trace tells about the continuation `c`, oldest first. -/
def history (c : Nat) (trace : List Event) : List Mark :=
  trace.filterMap (Event.mark c)

/-- The complete life of one decode request: posted to `IO` by the requesting
call on `UI`, run on `IO`, completion posted from `IO` to `UI`, completion run
on `UI`, continuation invoked on `UI`. -/
def lifecycle : List Mark :=
  [.posted .UI .IOThread, .ran .IOThread, .posted .IOThread .UI, .ran .UI, .invoked .UI]

/-- The invariant of the pipeline: where each continuation is in its life,
read off the queues. -/
structure Inv (w : World) : Prop where
  fresh : ∀ c, w.next_object ≤ c → history c w.trace = []
  io_kind : ∀ t ∈ w.io_queue, ∃ cb buf, t = Task.decodeAndInvoke cb buf
  ui_kind : ∀ t ∈ w.ui_queue, ∃ cb img, t = Task.invokeCallback cb img
  io_nodup : (w.io_queue.map (fun t => t.callback.id)).Nodup
  ui_nodup : (w.ui_queue.map (fun t => t.callback.id)).Nodup
  io_hist : ∀ t ∈ w.io_queue, history t.callback.id w.trace = lifecycle.take 1
  ui_hist : ∀ t ∈ w.ui_queue, history t.callback.id w.trace = lifecycle.take 3
  settled : ∀ c, (∀ t ∈ w.io_queue, t.callback.id ≠ c) → (∀ t ∈ w.ui_queue, t.callback.id ≠ c) →
    history c w.trace = [] ∨ history c w.trace = lifecycle.take 4 ∨
      history c w.trace = lifecycle

/-! ## Data model of `window.h` -/

/-- A `ftl::RefPtr<blink::PlatformMessageResponse>`, identified by an opaque
number. -/
abbrev PlatformMessageResponse := Nat

/-- The private state of `class Window`: the client pointer, the response
counter (a C++ `int`) and the map of pending responses, kept as an
association list with at most one entry per key. -/
structure Window where
  client_ : Nat
  next_response_id_ : Int
  pending_responses_ : List (Int × PlatformMessageResponse)
  deriving DecidableEq, Repr

/-- A freshly constructed `Window`: the default member initialisers of
`window.h` (`next_response_id_ = 1`, an empty map). -/
def Window.new (client : Nat) : Window :=
  { client_ := client, next_response_id_ := 1, pending_responses_ := [] }

end blink

namespace shell

/-! ## Data model of `platform_view_glfw.cc` -/

/-- The value of `GLFW_RELEASE` in `GLFW/glfw3.h`. -/
def GLFW_RELEASE : Int := 0

/-- The value of `GLFW_PRESS` in `GLFW/glfw3.h`. -/
def GLFW_PRESS : Int := 1

/-- A C++ `double` that is only stored and copied: its 64 bits. -/
structure Double where
  bits : Nat
  deriving DecidableEq, Repr

/-- The literal `0.0`. -/
def Double.zero : Double := ⟨0⟩

/-- The literal `1.0`. -/
def Double.one : Double := ⟨0x3FF0000000000000⟩

/-- Modelled from the spec: the enumerators of `blink::PointerData::Change`
that `platform_view_glfw.cc` names (`pointer_data.h` is not among the
sources); the spec calls the samples down, move and up. -/
inductive Change where
  | kCancel
  | kDown
  | kMove
  | kUp
  deriving DecidableEq, Repr

/-- Modelled from the spec: the enumerator of `blink::PointerData::DeviceKind`
that `platform_view_glfw.cc` names (`pointer_data.h` is not among the
sources), next to the value `Clear()` leaves. -/
inductive DeviceKind where
  | cleared
  | kMouse
  deriving DecidableEq, Repr

/-- Modelled from the spec: one pointer sample, with the fields of
`blink::PointerData` that `platform_view_glfw.cc` assigns after `Clear()`
(`pointer_data.h` is not among the sources). -/
structure PointerData where
  time_stamp : Int
  change : Change
  kind : DeviceKind
  physical_x : Double
  physical_y : Double
  buttons : Int
  pressure : Double
  pressure_max : Double
  deriving DecidableEq, Repr

/-- The sample `pointer_data.Clear()` leaves. -/
def PointerData.Clear : PointerData :=
  { time_stamp := 0, change := .kCancel, kind := .cleared, physical_x := .zero,
    physical_y := .zero, buttons := 0, pressure := .zero, pressure_max := .zero }

/-- Modelled from the spec: a `blink::PointerDataPacket`, "a batch of pointer
samples, in arrival order" (`pointer_data_packet.h` is not among the
sources). -/
abbrev PointerDataPacket := List PointerData

/-- Modelled from the spec: the constructor `blink::PointerDataPacket packet(count)`,
a packet with room for `count` samples. -/
def PointerDataPacket.new (count : Nat) : PointerDataPacket :=
  List.replicate count PointerData.Clear

/-- Modelled from the spec: the call `packet.SetPointerData(i, data)`, which stores
sample `i` of the batch. -/
def PointerDataPacket.SetPointerData (packet : PointerDataPacket) (i : Nat)
    (data : PointerData) : PointerDataPacket :=
  packet.set i data

/-- The fields of `blink::ViewportMetrics` as far as `OnWindowSizeChanged` fills it. -/
structure ViewportMetrics where
  physical_width : Int
  physical_height : Int
  deriving DecidableEq, Repr

/-- The closures this file posts to `Threads::UI()`, defunctionalised; each
also captures `engine().GetWeakPtr()`. -/
inductive UITask where
  | setViewportMetrics (metrics : ViewportMetrics)
  | dispatchPointer (pointer_data : PointerData)
  deriving DecidableEq, Repr

/-- A call that reaches the engine when a posted closure runs. -/
inductive EngineCall where
  | SetViewportMetrics (metrics : ViewportMetrics)
  | DispatchPointerDataPacket (packet : PointerDataPacket)
  deriving DecidableEq, Repr

/-- Running one posted closure; `engine` tells whether the weak pointer
still resolves. -/
def UITask.run (engine : Bool) : UITask → List EngineCall
  | .setViewportMetrics metrics => if engine then [.SetViewportMetrics metrics] else []
  | .dispatchPointer pointer_data =>
    if engine then
      let packet := PointerDataPacket.new 1
      let packet := packet.SetPointerData 0 pointer_data
      [.DispatchPointerDataPacket packet]
    else []

/-- Modelled from the spec: the `UI` loop ("tasks posted to the same context
execute in submission order") running its queue, oldest task first. -/
def drain (engine : Bool) (queue : List UITask) : List EngineCall :=
  queue.flatMap (UITask.run engine)

/-- The callbacks GLFW holds for one window, as far as this file sets them:
`true` when a callback is registered. -/
structure GLFWwindow where
  window_size_callback : Bool
  mouse_button_callback : Bool
  key_callback : Bool
  cursor_pos_callback : Bool
  deriving DecidableEq, Repr

/-- The members of `PlatformViewGLFW`, together with the `UI` queue it posts
to (head is the oldest task).  `glfw_window_` is `none` for `nullptr`. -/
structure PlatformViewGLFW where
  valid_ : Bool
  glfw_window_ : Option GLFWwindow
  buttons_ : Int
  ui_queue : List UITask
  deriving DecidableEq, Repr

/-- Embedding of the constructor `PlatformViewGLFW::PlatformViewGLFW()`; the arguments are the outcomes of
`glfwInit()` and of `glfwCreateWindow` (whether it returned a window). -/
def PlatformViewGLFW.new (glfwInit glfwCreateWindow : Bool) : PlatformViewGLFW :=
  let view : PlatformViewGLFW :=
    { valid_ := false, glfw_window_ := none, buttons_ := 0, ui_queue := [] }
  if !glfwInit then view
  else if !glfwCreateWindow then view
  else
    { view with
      glfw_window_ := some
        { window_size_callback := true, mouse_button_callback := true, key_callback := true,
          cursor_pos_callback := false }
      valid_ := true }

/-- The GLFW call `glfwSetCursorPosCallback(glfw_window_, cbfun)`; `registered` is false
for `nullptr`. -/
def glfwSetCursorPosCallback (window : Option GLFWwindow) (registered : Bool) :
    Option GLFWwindow :=
  window.map (fun g => { g with cursor_pos_callback := registered })

/-- What a handler reads from its surroundings while it runs: the result of
`glfwGetCursorPos` and `base::TimeTicks::Now() - base::TimeTicks()` in
microseconds. -/
structure Reading where
  cursor_x : Double
  cursor_y : Double
  now : Int
  deriving DecidableEq, Repr

/-- Embedding of `void PlatformViewGLFW::OnWindowSizeChanged(int width, int height)`. -/
def OnWindowSizeChanged (width height : Int) (v : PlatformViewGLFW) : PlatformViewGLFW :=
  let metrics : ViewportMetrics := { physical_width := width, physical_height := height }
  { v with ui_queue := v.ui_queue ++ [.setViewportMetrics metrics] }

/-- Embedding of `void PlatformViewGLFW::OnMouseButtonChanged(int button, int action,
int mods)`.  `button` is a GLFW button index, never negative. -/
def OnMouseButtonChanged (button : Nat) (action mods : Int) (env : Reading)
    (v : PlatformViewGLFW) : PlatformViewGLFW :=
  let post (change : Change) (v : PlatformViewGLFW) : PlatformViewGLFW :=
    let pointer_data : PointerData :=
      { PointerData.Clear with
        time_stamp := env.now
        change := change
        kind := .kMouse
        physical_x := env.cursor_x
        physical_y := env.cursor_y
        buttons := v.buttons_
        pressure := .one
        pressure_max := .one }
    { v with ui_queue := v.ui_queue ++ [.dispatchPointer pointer_data] }
  if action = GLFW_PRESS then
    if v.buttons_ = 0 then
      let v1 := { v with glfw_window_ := glfwSetCursorPosCallback v.glfw_window_ true }
      post .kDown { v1 with buttons_ := cpp.bitOr v1.buttons_ (cpp.shl 1 button) }
    else
      post .kMove { v with buttons_ := cpp.bitOr v.buttons_ (cpp.shl 1 button) }
  else if action = GLFW_RELEASE then
    let v1 := { v with buttons_ := cpp.bitAnd v.buttons_ (cpp.bitNot (cpp.shl 1 button)) }
    if v1.buttons_ = 0 then
      post .kUp { v1 with glfw_window_ := glfwSetCursorPosCallback v1.glfw_window_ false }
    else
      post .kMove v1
  else
    v

/-- Embedding of `void PlatformViewGLFW::OnCursorPosChanged(double x, double y)`. -/
def OnCursorPosChanged (x y : Double) (env : Reading) (v : PlatformViewGLFW) :
    PlatformViewGLFW :=
  let pointer_data : PointerData :=
    { PointerData.Clear with
      time_stamp := env.now
      change := .kMove
      kind := .kMouse
      physical_x := x
      physical_y := y
      buttons := v.buttons_
      pressure := .one
      pressure_max := .one }
  { v with ui_queue := v.ui_queue ++ [.dispatchPointer pointer_data] }

/-- A native pointer event as GLFW reports it. -/
inductive NativeEvent where
  | mouseButton (button : Nat) (action mods : Int)
  | cursorPos (x y : Double)
  deriving DecidableEq, Repr

/-- A native event together with what its handler reads while running. -/
structure Input where
  event : NativeEvent
  env : Reading
  deriving DecidableEq, Repr

/-- The handler call an event stands for. -/
def handle (i : Input) (v : PlatformViewGLFW) : PlatformViewGLFW :=
  match i.event with
  | .mouseButton button action mods => OnMouseButtonChanged button action mods i.env v
  | .cursorPos x y => OnCursorPosChanged x y i.env v

/-- GLFW delivering an event: the lambda registered for it in the constructor
or in `OnMouseButtonChanged` calls the handler; without a window or a
registered callback nothing is called. -/
def glfwDeliver (v : PlatformViewGLFW) (i : Input) : PlatformViewGLFW :=
  match v.glfw_window_ with
  | none => v
  | some g =>
    match i.event with
    | .mouseButton _ _ _ => if g.mouse_button_callback then handle i v else v
    | .cursorPos _ _ => if g.cursor_pos_callback then handle i v else v

/-- GLFW delivering events one after the other. -/
def glfwDeliverAll (v : PlatformViewGLFW) (inputs : List Input) : PlatformViewGLFW :=
  inputs.foldl glfwDeliver v

/-- The handler calls of a list of events made one after the other. -/
def handleAll (v : PlatformViewGLFW) (inputs : List Input) : PlatformViewGLFW :=
  inputs.foldl (fun v i => handle i v) v

/-- An event its handler acts on: a cursor move, or a button event whose
action is press or release. -/
def Input.handled (i : Input) : Bool :=
  match i.event with
  | .mouseButton _ action _ => action == GLFW_PRESS || action == GLFW_RELEASE
  | .cursorPos _ _ => true

/-- A button index GLFW can report (`0 .. GLFW_MOUSE_BUTTON_LAST`). -/
def Input.buttonInRange (i : Input) : Bool :=
  match i.event with
  | .mouseButton button _ _ => button ≤ 7
  | .cursorPos _ _ => true

/-- The position a sample built from this event carries. -/
def Input.position (i : Input) : Double × Double :=
  match i.event with
  | .mouseButton _ _ _ => (i.env.cursor_x, i.env.cursor_y)
  | .cursorPos x y => (x, y)

/-- A sample carries the time, the position and the kind of the event it
was built from. -/
def PointerData.builtFrom (pointer_data : PointerData) (i : Input) : Prop :=
  pointer_data.time_stamp = i.env.now ∧
  (pointer_data.physical_x, pointer_data.physical_y) = i.position ∧
  pointer_data.kind = DeviceKind.kMouse

/-- The pointer samples waiting in a queue, oldest first. -/
def samples (queue : List UITask) : List PointerData :=
  queue.filterMap (fun t =>
    match t with
    | .dispatchPointer pointer_data => some pointer_data
    | .setViewportMetrics _ => none)

/-- Reading a sequence of changes with one bit of memory: whether a `kDown`
has been seen with no `kUp` after it.  The result is `none` as soon as a
`kDown` arrives while the bit is set. -/
def scan : Bool → List Change → Option Bool
  | down, [] => some down
  | down, .kDown :: rest => if down then none else scan true rest
  | _, .kUp :: rest => scan false rest
  | down, _ :: rest => scan down rest

/-- Whether GLFW holds a cursor-position callback for the view's window. -/
def cursorRegistered (v : PlatformViewGLFW) : Bool :=
  match v.glfw_window_ with
  | none => false
  | some g => g.cursor_pos_callback

/-- The changes of the pointer samples waiting in a queue, oldest first. -/
def changes (queue : List UITask) : List Change :=
  (samples queue).map (fun pointer_data => pointer_data.change)

/-- The changes of the samples one engine call delivers. -/
def EngineCall.changes : EngineCall → List Change
  | .SetViewportMetrics _ => []
  | .DispatchPointerDataPacket packet => packet.map (fun pointer_data => pointer_data.change)

/-- A sample run: button 0 pressed, the cursor moved, button 0 released. -/
def pressMoveRelease : List Input :=
  [⟨.mouseButton 0 GLFW_PRESS 0, ⟨⟨10⟩, ⟨20⟩, 100⟩⟩,
    ⟨.cursorPos ⟨11⟩ ⟨21⟩, ⟨⟨0⟩, ⟨0⟩, 101⟩⟩,
    ⟨.mouseButton 0 GLFW_RELEASE 0, ⟨⟨12⟩, ⟨22⟩, 102⟩⟩]

/-- A sample run with two buttons: 0 pressed, 1 pressed, 0 released, an
unknown action, 1 released, 0 pressed again. -/
def twoButtons : List Input :=
  [⟨.mouseButton 0 GLFW_PRESS 0, ⟨⟨10⟩, ⟨20⟩, 100⟩⟩,
    ⟨.mouseButton 1 GLFW_PRESS 0, ⟨⟨10⟩, ⟨20⟩, 101⟩⟩,
    ⟨.mouseButton 0 GLFW_RELEASE 0, ⟨⟨10⟩, ⟨20⟩, 102⟩⟩,
    ⟨.mouseButton 1 2 0, ⟨⟨10⟩, ⟨20⟩, 103⟩⟩,
    ⟨.mouseButton 1 GLFW_RELEASE 0, ⟨⟨10⟩, ⟨20⟩, 104⟩⟩,
    ⟨.mouseButton 0 GLFW_PRESS 0, ⟨⟨10⟩, ⟨20⟩, 105⟩⟩]

end shell

namespace blink

/-! ## Theorems about `image_decoding.cc` -/

/-- C1: `DecodeImage` on the empty buffer returns null having made no call
but the tracing macro (no `SkData`, `SkImageGenerator`, `TextureImageCreate`
or `BitmapImageCreate` call), and for every buffer for which the data wrapper
or the generator is absent the result is null; `DecodeImage` is a total
function into `Option`, so no other outcome exists. -/
theorem DecodeImage_null_when_empty_or_absent (skia : Skia) (buffer : List Byte) :
    DecodeImage skia [] = (none, [DecodeCall.TRACE_EVENT0]) ∧
    (DecodeImage skia []).2.filter DecodeCall.isDecodeTransformation = [] ∧
    (skia.MakeWithoutCopy buffer = none ∨
        (skia.MakeWithoutCopy buffer).bind skia.NewFromEncoded = none →
      (DecodeImage skia buffer).1 = none ∧
      ∀ c ∈ (DecodeImage skia buffer).2,
        (∀ ctx g, c ≠ DecodeCall.TextureImageCreate ctx g) ∧
        (∀ g, c ≠ DecodeCall.BitmapImageCreate g)) := by
  refine ⟨rfl, rfl, ?_⟩
  intro h
  unfold DecodeImage
  by_cases hb : buffer.isEmpty = true
  · simp [hb]
  · simp only [hb]
    cases hd : skia.MakeWithoutCopy buffer with
    | none => simp
    | some d =>
      have hg : skia.NewFromEncoded d = none := by
        rcases h with h | h
        · simp [hd] at h
        · simpa [hd] using h
      simp [hg]

/-- Witness for C1: a buffer whose data wrapper is absent. -/
theorem DecodeImage_null_when_empty_or_absent_witness :
    (DecodeImage skiaNoData [7]).1 = none :=
  ((DecodeImage_null_when_empty_or_absent skiaNoData [7]).2.2 (Or.inl rfl)).1

/-- C2: whatever the buffer and the decode outcome,
`DecodeImageAndInvokeImageCallback` appends exactly one task to the `UI`
queue, namely the completion closure holding the outcome of `DecodeImage` and
the continuation it was given; it leaves the `IO` queue alone, and among the
events it adds exactly one is a `PostTask`. -/
theorem DecodeImageAndInvokeImageCallback_posts_once (skia : Skia) (ctx : Context)
    (callback : DartPersistentValue) (buffer : List Byte) (w : World) :
    (DecodeImageAndInvokeImageCallback skia ctx callback buffer w).ui_queue =
        w.ui_queue ++ [Task.invokeCallback callback (DecodeImage skia buffer).1] ∧
    (DecodeImageAndInvokeImageCallback skia ctx callback buffer w).io_queue = w.io_queue ∧
    (DecodeImageAndInvokeImageCallback skia ctx callback buffer w).trace =
        w.trace ++ (DecodeImage skia buffer).2.map (fun c => ⟨ctx, Effect.Decode c⟩) ++
          [⟨ctx, Effect.PostTask Context.UI
              (Task.invokeCallback callback (DecodeImage skia buffer).1)⟩] ∧
    ((DecodeImageAndInvokeImageCallback skia ctx callback buffer w).trace.drop
        w.trace.length).filter Event.isPostTask =
      [⟨ctx, Effect.PostTask Context.UI
          (Task.invokeCallback callback (DecodeImage skia buffer).1)⟩] := by
  refine ⟨rfl, rfl, rfl, ?_⟩
  have ht : (DecodeImageAndInvokeImageCallback skia ctx callback buffer w).trace =
      w.trace ++ ((DecodeImage skia buffer).2.map (fun c => ⟨ctx, Effect.Decode c⟩) ++
        [⟨ctx, Effect.PostTask Context.UI
            (Task.invokeCallback callback (DecodeImage skia buffer).1)⟩]) := by
    simp [DecodeImageAndInvokeImageCallback, PostTask]
  rw [ht, List.drop_left, List.filter_append]
  have hz : ((DecodeImage skia buffer).2.map
      (fun c => (⟨ctx, Effect.Decode c⟩ : Event))).filter Event.isPostTask = [] := by
    rw [List.filter_eq_nil_iff]
    intro e he
    rcases List.mem_map.mp he with ⟨c, _, rfl⟩
    simp [Event.isPostTask]
  rw [hz]
  simp [Event.isPostTask]

/-- C3: while the `DartState` that owns the continuation is alive,
`InvokeImageCallback` adds exactly one event, a `DartInvoke` of that
continuation with exactly one argument; the argument is `Dart_Null()` exactly
when the decode outcome is null, and otherwise it is the `CanvasImage`
allocated by this call (its identity is the world's next unused one) holding
exactly the decoded image. -/
theorem InvokeImageCallback_alive (ctx : Context) (image : Option SkImage)
    (callback : DartPersistentValue) (w : World)
    (alive : callback.dart_state w ≠ none) :
    ∃ arg : DartValue,
      (InvokeImageCallback ctx image callback w).trace =
        w.trace ++ [⟨ctx, Effect.DartInvoke callback [arg]⟩] ∧
      (arg = DartValue.Dart_Null ↔ image = none) ∧
      (∀ img, image = some img →
        arg = DartValue.ToDart { id := w.next_object, image := some img } ∧
        (InvokeImageCallback ctx image callback w).next_object = w.next_object + 1) := by
  unfold InvokeImageCallback
  cases hs : callback.dart_state w with
  | none => exact absurd hs alive
  | some s =>
    cases image with
    | none => exact ⟨DartValue.Dart_Null, rfl, by simp, by simp⟩
    | some img =>
      refine ⟨DartValue.ToDart { id := w.next_object, image := some img }, rfl, by simp, ?_⟩
      intro img2 h
      cases h
      exact ⟨rfl, rfl⟩

/-- Witness for C3: a decoded image delivered to a live `DartState`. -/
theorem InvokeImageCallback_alive_witness :
    ∃ arg : DartValue,
      (InvokeImageCallback Context.UI (some ⟨5⟩) ⟨0, 1, ⟨true, 9⟩⟩ (World.init [1])).trace =
        (World.init [1]).trace ++
          [⟨Context.UI, Effect.DartInvoke ⟨0, 1, ⟨true, 9⟩⟩ [arg]⟩] ∧
      (arg = DartValue.Dart_Null ↔ (some ⟨5⟩ : Option SkImage) = none) ∧
      (∀ img, (some ⟨5⟩ : Option SkImage) = some img →
        arg = DartValue.ToDart { id := (World.init [1]).next_object, image := some img } ∧
        (InvokeImageCallback Context.UI (some ⟨5⟩) ⟨0, 1, ⟨true, 9⟩⟩
          (World.init [1])).next_object = (World.init [1]).next_object + 1) :=
  InvokeImageCallback_alive Context.UI (some ⟨5⟩) ⟨0, 1, ⟨true, 9⟩⟩ (World.init [1])
    (by decide)

/-! ### The pipeline as a whole -/

theorem history_append (c : Nat) (t u : List Event) :
    history c (t ++ u) = history c t ++ history c u := by
  simp [history, List.filterMap_append]

theorem history_decode (c : Nat) (ctx : Context) (calls : List DecodeCall) :
    history c (calls.map (fun d => (⟨ctx, Effect.Decode d⟩ : Event))) = [] := by
  induction calls with
  | nil => rfl
  | cons d ds ih =>
    simp only [history, List.map_cons, List.filterMap_cons, Event.mark] at ih ⊢
    exact ih

/-- What a successful request does to the world. -/
theorem request_ok_shape (current : DartStateId) (args : Dart_NativeArguments) (w : World)
    (list : List Byte) (hl : args.list = some list) (hc : args.callback_handle.is_closure = true) :
    DecodeImageFromList Context.UI current args w =
      { w with
        io_queue := w.io_queue ++
          [Task.decodeAndInvoke ⟨w.next_object, current, args.callback_handle⟩ list]
        next_object := w.next_object + 1
        trace := w.trace ++ [⟨Context.UI, Effect.PostTask Context.IOThread
          (Task.decodeAndInvoke ⟨w.next_object, current, args.callback_handle⟩ list)⟩] } := by
  simp [DecodeImageFromList, hl, hc, PostTask]

/-- What a refused request does to the world. -/
theorem request_throw_shape (current : DartStateId) (args : Dart_NativeArguments) (w : World)
    (h : args.list = none ∨ args.callback_handle.is_closure = false) :
    DecodeImageFromList Context.UI current args w =
      { w with trace := w.trace ++ [⟨Context.UI, Effect.Dart_ThrowException⟩] } := by
  unfold DecodeImageFromList
  cases hl : args.list with
  | none => rfl
  | some list =>
    rcases h with h | h
    · simp [hl] at h
    · simp [h]

/-- What running the decode closure does to the world. -/
theorem run_decode_shape (skia : Skia) (ctx : Context) (cb : DartPersistentValue)
    (buf : List Byte) (w : World) :
    (Task.decodeAndInvoke cb buf).run skia ctx w =
      { w with
        ui_queue := w.ui_queue ++ [Task.invokeCallback cb (DecodeImage skia buf).1]
        trace := w.trace ++ ([⟨ctx, Effect.RunTask (Task.decodeAndInvoke cb buf)⟩] ++
          (DecodeImage skia buf).2.map (fun d => ⟨ctx, Effect.Decode d⟩) ++
          [⟨ctx, Effect.PostTask Context.UI
            (Task.invokeCallback cb (DecodeImage skia buf).1)⟩]) } := by
  simp [Task.run, DecodeImageAndInvokeImageCallback, PostTask]

/-- What running the completion closure does to the world. -/
theorem run_invoke_shape (skia : Skia) (ctx : Context) (cb : DartPersistentValue)
    (img : Option SkImage) (w : World) :
    ∃ n tail, w.next_object ≤ n ∧
      (tail = [] ∨ ∃ args, tail = [(⟨ctx, Effect.DartInvoke cb args⟩ : Event)]) ∧
      (Task.invokeCallback cb img).run skia ctx w =
        { w with
          next_object := n
          trace := w.trace ++
            ([⟨ctx, Effect.RunTask (Task.invokeCallback cb img)⟩] ++ tail) } := by
  unfold Task.run InvokeImageCallback
  simp only [DartPersistentValue.dart_state]
  by_cases hlive : cb.dart_state_ ∈ w.live
  · cases img with
    | none =>
      exact ⟨w.next_object, [⟨ctx, Effect.DartInvoke cb [DartValue.Dart_Null]⟩], le_refl _,
        Or.inr ⟨_, rfl⟩, by simp [hlive]⟩
    | some i =>
      exact ⟨w.next_object + 1,
        [⟨ctx, Effect.DartInvoke cb [DartValue.ToDart ⟨w.next_object, some i⟩]⟩],
        Nat.le_succ _, Or.inr ⟨_, rfl⟩, by simp [hlive]⟩
  · exact ⟨w.next_object, [], le_refl _, Or.inl rfl, by simp [hlive]⟩

theorem lifecycle_take_one_ne_nil : lifecycle.take 1 ≠ [] := by decide

theorem lifecycle_take_three_ne_nil : lifecycle.take 3 ≠ [] := by decide

theorem lifecycle_take_one_ne_three : lifecycle.take 1 ≠ lifecycle.take 3 := by decide

theorem inv_init (live : List DartStateId) : Inv (World.init live) := by
  constructor <;> simp [World.init, history]

/-- A step that changes neither the queues nor any history keeps the
invariant. -/
theorem inv_of_same (w w2 : World) (h : Inv w) (hio : w2.io_queue = w.io_queue)
    (hui : w2.ui_queue = w.ui_queue) (hn : w.next_object ≤ w2.next_object)
    (hh : ∀ c, history c w2.trace = history c w.trace) : Inv w2 := by
  constructor
  · intro c hc
    rw [hh]
    exact h.fresh c (le_trans hn hc)
  · rw [hio]; exact h.io_kind
  · rw [hui]; exact h.ui_kind
  · rw [hio]; exact h.io_nodup
  · rw [hui]; exact h.ui_nodup
  · rw [hio]; intro t ht; rw [hh]; exact h.io_hist t ht
  · rw [hui]; intro t ht; rw [hh]; exact h.ui_hist t ht
  · rw [hio, hui]; intro c h1 h2; rw [hh]; exact h.settled c h1 h2

theorem inv_request (current : DartStateId) (args : Dart_NativeArguments) (w : World)
    (h : Inv w) : Inv (DecodeImageFromList Context.UI current args w) := by
  cases hl : args.list with
  | none =>
    rw [request_throw_shape current args w (Or.inl hl)]
    exact inv_of_same w _ h rfl rfl (le_refl _) (fun c => by simp [history, Event.mark])
  | some list =>
    cases hc : args.callback_handle.is_closure with
    | false =>
      rw [request_throw_shape current args w (Or.inr hc)]
      exact inv_of_same w _ h rfl rfl (le_refl _) (fun c => by simp [history, Event.mark])
    | true =>
      rw [request_ok_shape current args w list hl hc]
      have hnew : history w.next_object w.trace = [] := h.fresh _ (le_refl _)
      have hio_ne : ∀ t ∈ w.io_queue, t.callback.id ≠ w.next_object := by
        intro t ht heq
        have := h.io_hist t ht
        rw [heq, hnew] at this
        exact lifecycle_take_one_ne_nil this.symm
      have hui_ne : ∀ t ∈ w.ui_queue, t.callback.id ≠ w.next_object := by
        intro t ht heq
        have := h.ui_hist t ht
        rw [heq, hnew] at this
        exact lifecycle_take_three_ne_nil this.symm
      have hstep : ∀ c, c ≠ w.next_object →
          history c (w.trace ++ [⟨Context.UI, Effect.PostTask Context.IOThread
            (Task.decodeAndInvoke ⟨w.next_object, current, args.callback_handle⟩ list)⟩]) =
          history c w.trace := by
        intro c hne
        rw [history_append]
        simp [history, Event.mark, Task.callback, Ne.symm hne]
      constructor
      · intro c hc2
        have hne : c ≠ w.next_object := by
          simp only at hc2
          omega
        simp only
        rw [hstep c hne]
        exact h.fresh c (by simp only at hc2; omega)
      · intro t ht
        simp only [List.mem_append, List.mem_singleton] at ht
        rcases ht with ht | ht
        · exact h.io_kind t ht
        · exact ⟨_, _, ht⟩
      · exact h.ui_kind
      · simp only [List.map_append, List.map_cons, List.map_nil]
        rw [List.nodup_append]
        refine ⟨h.io_nodup, List.nodup_singleton _, ?_⟩
        intro a ha hb
        simp only [List.mem_singleton, Task.callback] at hb
        rcases List.mem_map.mp ha with ⟨t, ht, rfl⟩
        exact hio_ne t ht hb
      · exact h.ui_nodup
      · intro t ht
        simp only [List.mem_append, List.mem_singleton] at ht
        rcases ht with ht | ht
        · simp only
          rw [hstep _ (hio_ne t ht)]
          exact h.io_hist t ht
        · subst ht
          simp only [Task.callback]
          rw [history_append, hnew]
          simp [history, Event.mark, Task.callback, lifecycle]
      · intro t ht
        simp only
        rw [hstep _ (hui_ne t ht)]
        exact h.ui_hist t ht
      · intro c h1 h2
        have hne : c ≠ w.next_object := by
          intro heq
          exact h1 (Task.decodeAndInvoke ⟨w.next_object, current, args.callback_handle⟩ list)
            (by simp) (by simp [Task.callback, heq])
        simp only
        rw [hstep c hne]
        exact h.settled c (fun t ht => h1 t (by simp [ht])) h2

theorem inv_runIOTask (skia : Skia) (w : World) (h : Inv w) (t : Task) (rest : List Task)
    (hq : w.io_queue = t :: rest) : Inv (t.run skia Context.IOThread { w with io_queue := rest }) := by
  obtain ⟨cb, buf, rfl⟩ := h.io_kind t (by simp [hq])
  rw [run_decode_shape]
  have hcb : history cb.id w.trace = lifecycle.take 1 := by
    simpa [Task.callback] using
      h.io_hist (Task.decodeAndInvoke cb buf) (by rw [hq]; exact List.mem_cons_self _ _)
  have hnd := h.io_nodup
  rw [hq, List.map_cons, List.nodup_cons] at hnd
  have hrest_ne : ∀ t ∈ rest, t.callback.id ≠ cb.id := by
    intro t ht heq
    exact hnd.1 (List.mem_map.mpr ⟨t, ht, by simpa [Task.callback] using heq⟩)
  have hui_ne : ∀ t ∈ w.ui_queue, t.callback.id ≠ cb.id := by
    intro t ht heq
    have := h.ui_hist t ht
    rw [heq, hcb] at this
    exact lifecycle_take_one_ne_three this
  have hstep : ∀ c, c ≠ cb.id →
      history c (w.trace ++ ([⟨Context.IOThread, Effect.RunTask (Task.decodeAndInvoke cb buf)⟩] ++
          (DecodeImage skia buf).2.map (fun d => ⟨Context.IOThread, Effect.Decode d⟩) ++
          [⟨Context.IOThread, Effect.PostTask Context.UI
            (Task.invokeCallback cb (DecodeImage skia buf).1)⟩])) = history c w.trace := by
    intro c hne
    rw [history_append, history_append, history_append, history_decode]
    simp [history, Event.mark, Task.callback, Ne.symm hne]
  constructor
  · intro c hc
    have hne : c ≠ cb.id := by
      intro heq
      have := h.fresh c hc
      rw [heq, hcb] at this
      exact lifecycle_take_one_ne_nil this
    simp only
    rw [hstep c hne]
    exact h.fresh c hc
  · intro t ht
    exact h.io_kind t (by rw [hq]; exact List.mem_cons_of_mem _ ht)
  · intro t ht
    simp only [List.mem_append, List.mem_singleton] at ht
    rcases ht with ht | ht
    · exact h.ui_kind t ht
    · exact ⟨_, _, ht⟩
  · exact hnd.2
  · simp only [List.map_append, List.map_cons, List.map_nil]
    rw [List.nodup_append]
    refine ⟨h.ui_nodup, List.nodup_singleton _, ?_⟩
    intro a ha hb
    simp only [List.mem_singleton, Task.callback] at hb
    rcases List.mem_map.mp ha with ⟨t, ht, rfl⟩
    exact hui_ne t ht hb
  · intro t ht
    simp only
    rw [hstep _ (hrest_ne t ht)]
    exact h.io_hist t (by rw [hq]; exact List.mem_cons_of_mem _ ht)
  · intro t ht
    simp only [List.mem_append, List.mem_singleton] at ht
    rcases ht with ht | ht
    · simp only
      rw [hstep _ (hui_ne t ht)]
      exact h.ui_hist t ht
    · subst ht
      simp only [Task.callback]
      rw [history_append, history_append, history_append, history_decode, hcb]
      simp [history, Event.mark, Task.callback, lifecycle]
  · intro c h1 h2
    have hne : c ≠ cb.id := by
      intro heq
      exact h2 (Task.invokeCallback cb (DecodeImage skia buf).1) (by simp)
        (by simp [Task.callback, heq])
    simp only
    rw [hstep c hne]
    refine h.settled c ?_ (fun t ht => h2 t (by simp [ht]))
    intro t ht
    rw [hq] at ht
    rcases List.mem_cons.mp ht with ht | ht
    · subst ht
      simpa [Task.callback] using Ne.symm hne
    · exact h1 t ht

theorem inv_runUITask (skia : Skia) (w : World) (h : Inv w) (t : Task) (rest : List Task)
    (hq : w.ui_queue = t :: rest) : Inv (t.run skia Context.UI { w with ui_queue := rest }) := by
  obtain ⟨cb, img, rfl⟩ := h.ui_kind t (by simp [hq])
  obtain ⟨n, tail, hn, htail, heq⟩ :=
    run_invoke_shape skia Context.UI cb img { w with ui_queue := rest }
  rw [heq]
  have hcb : history cb.id w.trace = lifecycle.take 3 := by
    simpa [Task.callback] using
      h.ui_hist (Task.invokeCallback cb img) (by rw [hq]; exact List.mem_cons_self _ _)
  have hnd := h.ui_nodup
  rw [hq, List.map_cons, List.nodup_cons] at hnd
  have hrest_ne : ∀ t ∈ rest, t.callback.id ≠ cb.id := by
    intro t ht heq
    exact hnd.1 (List.mem_map.mpr ⟨t, ht, by simpa [Task.callback] using heq⟩)
  have hio_ne : ∀ t ∈ w.io_queue, t.callback.id ≠ cb.id := by
    intro t ht heq
    have := h.io_hist t ht
    rw [heq, hcb] at this
    exact lifecycle_take_one_ne_three this.symm
  have hstep : ∀ c, c ≠ cb.id →
      history c (w.trace ++
        ([⟨Context.UI, Effect.RunTask (Task.invokeCallback cb img)⟩] ++ tail)) =
        history c w.trace := by
    intro c hne
    rw [history_append, history_append]
    rcases htail with rfl | ⟨args, rfl⟩ <;>
      simp [history, Event.mark, Task.callback, Ne.symm hne]
  constructor
  · intro c hc
    simp only at hc
    have hc2 : w.next_object ≤ c := le_trans hn hc
    have hne : c ≠ cb.id := by
      intro heq
      have := h.fresh c hc2
      rw [heq, hcb] at this
      exact lifecycle_take_three_ne_nil this
    simp only
    rw [hstep c hne]
    exact h.fresh c hc2
  · exact h.io_kind
  · intro t ht
    exact h.ui_kind t (by rw [hq]; exact List.mem_cons_of_mem _ ht)
  · exact h.io_nodup
  · exact hnd.2
  · intro t ht
    simp only
    rw [hstep _ (hio_ne t ht)]
    exact h.io_hist t ht
  · intro t ht
    simp only
    rw [hstep _ (hrest_ne t ht)]
    exact h.ui_hist t (by rw [hq]; exact List.mem_cons_of_mem _ ht)
  · intro c h1 h2
    simp only
    by_cases hne : c = cb.id
    · subst hne
      rw [history_append, history_append, hcb]
      rcases htail with rfl | ⟨args, rfl⟩
      · right; left
        simp [history, Event.mark, Task.callback, lifecycle]
      · right; right
        simp [history, Event.mark, Task.callback, lifecycle]
    · rw [hstep c hne]
      refine h.settled c h1 ?_
      intro t ht
      rw [hq] at ht
      rcases List.mem_cons.mp ht with ht | ht
      · subst ht
        simpa [Task.callback] using Ne.symm hne
      · exact h2 t ht

theorem inv_step (skia : Skia) (w : World) (h : Inv w) (s : Step) :
    Inv (s.apply skia w) := by
  cases s with
  | request current args => exact inv_request current args w h
  | runIOTask =>
    simp only [Step.apply]
    cases hq : w.io_queue with
    | nil => exact h
    | cons t rest => exact inv_runIOTask skia w h t rest hq
  | runUITask =>
    simp only [Step.apply]
    cases hq : w.ui_queue with
    | nil => exact h
    | cons t rest => exact inv_runUITask skia w h t rest hq
  | teardown state =>
    exact ⟨h.fresh, h.io_kind, h.ui_kind, h.io_nodup, h.ui_nodup, h.io_hist, h.ui_hist,
      h.settled⟩

theorem inv_exec (skia : Skia) (steps : List Step) (w : World) (h : Inv w) :
    Inv (exec skia w steps) := by
  induction steps generalizing w with
  | nil => exact h
  | cons s rest ih => exact ih _ (inv_step skia w h s)

/-- Under the invariant every history is an initial part of the lifecycle. -/
theorem history_prefix_of_inv (w : World) (h : Inv w) (c : Nat) :
    history c w.trace <+: lifecycle := by
  by_cases hio : ∃ t ∈ w.io_queue, t.callback.id = c
  · obtain ⟨t, ht, rfl⟩ := hio
    rw [h.io_hist t ht]
    exact List.take_prefix _ _
  · by_cases hui : ∃ t ∈ w.ui_queue, t.callback.id = c
    · obtain ⟨t, ht, rfl⟩ := hui
      rw [h.ui_hist t ht]
      exact List.take_prefix _ _
    · push_neg at hio hui
      rcases h.settled c hio hui with h0 | h4 | h5
      · rw [h0]; exact List.nil_prefix
      · rw [h4]; exact List.take_prefix _ _
      · rw [h5]

/-- C5: for every schedule of requests, `IO` turns, `UI` turns and teardowns,
and for every continuation, what the trace records about it is an initial
part of: posted to `IO` by the requesting call, run on `IO`, completion posted
from `IO` to `UI`, completion run on `UI`, invoked on `UI`.  So it is invoked
at most once, only on `UI`, and only after its decode task ran on `IO` and
posted the completion.  The requesting call itself adds a single event, a
throw (queues untouched) or the post of one task to `IO`; the `IO` task runs
the decode calls before it posts to `UI`. -/
theorem decode_pipeline_order (skia : Skia) (live : List DartStateId) (steps : List Step)
    (c : Nat) :
    history c (exec skia (World.init live) steps).trace <+: lifecycle ∧
    (history c (exec skia (World.init live) steps).trace).count (Mark.invoked Context.UI) ≤ 1 ∧
    (∀ ctx, Mark.invoked ctx ∈ history c (exec skia (World.init live) steps).trace →
      ctx = Context.UI) ∧
    (∀ (w : World) (current : DartStateId) (args : Dart_NativeArguments),
      (DecodeImageFromList Context.UI current args w =
          { w with trace := w.trace ++ [⟨Context.UI, Effect.Dart_ThrowException⟩] }) ∨
      ∃ task, DecodeImageFromList Context.UI current args w =
          { w with
            io_queue := w.io_queue ++ [task]
            next_object := w.next_object + 1
            trace := w.trace ++ [⟨Context.UI, Effect.PostTask Context.IOThread task⟩] }) ∧
    (∀ (w : World) (cb : DartPersistentValue) (buf : List Byte),
      ((Task.decodeAndInvoke cb buf).run skia Context.IOThread w).trace =
        w.trace ++ ([⟨Context.IOThread, Effect.RunTask (Task.decodeAndInvoke cb buf)⟩] ++
          (DecodeImage skia buf).2.map (fun d => ⟨Context.IOThread, Effect.Decode d⟩) ++
          [⟨Context.IOThread, Effect.PostTask Context.UI
            (Task.invokeCallback cb (DecodeImage skia buf).1)⟩])) := by
  have hp := history_prefix_of_inv _ (inv_exec skia steps _ (inv_init live)) c
  refine ⟨hp, ?_, ?_, ?_, ?_⟩
  · exact le_trans (hp.sublist.count_le _) (by decide)
  · intro ctx hm
    have := hp.subset hm
    revert this
    cases ctx <;> decide
  · intro w current args
    cases hl : args.list with
    | none => exact Or.inl (request_throw_shape current args w (Or.inl hl))
    | some list =>
      cases hc : args.callback_handle.is_closure with
      | false => exact Or.inl (request_throw_shape current args w (Or.inr hc))
      | true => exact Or.inr ⟨_, request_ok_shape current args w list hl hc⟩
  · intro w cb buf
    rw [run_decode_shape]

/-- Witness for C5: one request decoded on `IO` and completed on `UI` goes
through the whole lifecycle, ending with its single invocation on `UI`. -/
theorem decode_pipeline_order_witness :
    history 0 (exec skiaBitmap (World.init [1])
      [Step.request 1 ⟨some [3], ⟨true, 9⟩⟩, Step.runIOTask, Step.runUITask]).trace =
        lifecycle ∧
    (history 0 (exec skiaBitmap (World.init [1])
      [Step.request 1 ⟨some [3], ⟨true, 9⟩⟩, Step.runIOTask, Step.runUITask]).trace).count
        (Mark.invoked Context.UI) ≤ 1 ∧
    Context.UI = Context.UI :=
  ⟨by decide,
    (decode_pipeline_order skiaBitmap [1]
      [Step.request 1 ⟨some [3], ⟨true, 9⟩⟩, Step.runIOTask, Step.runUITask] 0).2.1,
    (decode_pipeline_order skiaBitmap [1]
      [Step.request 1 ⟨some [3], ⟨true, 9⟩⟩, Step.runIOTask, Step.runUITask] 0).2.2.1
        Context.UI (by decide)⟩

/-! ## Theorems about `window.h` -/

end blink

namespace shell

/-! ## Theorems about `platform_view_glfw.cc` -/

theorem toBits_lt (x : Int) : cpp.toBits x < 4294967296 := by
  cases x <;> simp only [cpp.toBits] <;> omega

theorem ofBits_eq_zero (p : Nat) (hp : p < 4294967296) (h : cpp.ofBits p = 0) : p = 0 := by
  unfold cpp.ofBits at h
  split_ifs at h with hlt
  simp only [Int.ofNat_eq_coe] at h
  omega

/-- Setting a bit never gives the empty mask. -/
theorem bitOr_shl_ne_zero (b : Int) (k : Nat) (hk : k ≤ 7) :
    cpp.bitOr b (cpp.shl 1 k) ≠ 0 := by
  intro h0
  unfold cpp.bitOr at h0
  have hbits : cpp.toBits (cpp.shl 1 k) = 2 ^ k := by
    interval_cases k <;> decide
  have hlt : Nat.lor (cpp.toBits b) (cpp.toBits (cpp.shl 1 k)) < 2 ^ 32 :=
    Nat.or_lt_two_pow (by have := toBits_lt b; omega)
      (by have := toBits_lt (cpp.shl 1 k); omega)
  have hz := ofBits_eq_zero _ (by omega) h0
  have hbit := congrArg (fun x => Nat.testBit x k) hz
  rw [hbits] at hbit
  have e : Nat.lor (cpp.toBits b) (2 ^ k) = (cpp.toBits b ||| 2 ^ k) := rfl
  simp only [e, Nat.testBit_or, Nat.testBit_two_pow_self, Nat.zero_testBit,
    Bool.or_true] at hbit
  exact absurd hbit (by decide)

/-- Clearing a bit of the empty mask leaves it empty. -/
theorem bitAnd_zero_left (x : Int) : cpp.bitAnd 0 x = 0 := by
  unfold cpp.bitAnd
  have h0 : cpp.toBits 0 = 0 := by decide
  have e : Nat.land 0 (cpp.toBits x) = (0 &&& cpp.toBits x) := rfl
  rw [h0, e, Nat.zero_and]
  decide

theorem press_then_release (k : Nat) (hk : k ≤ 7) :
    cpp.bitAnd (cpp.bitOr 0 (cpp.shl 1 k)) (cpp.bitNot (cpp.shl 1 k)) = 0 := by
  interval_cases k <;> decide

/-- The sample `OnMouseButtonChanged` posts for a change and a mask. -/
theorem OnMouseButtonChanged_press (k : Nat) (mods : Int) (env : Reading)
    (v : PlatformViewGLFW) :
    OnMouseButtonChanged k GLFW_PRESS mods env v =
      { v with
        glfw_window_ :=
          if v.buttons_ = 0 then glfwSetCursorPosCallback v.glfw_window_ true
          else v.glfw_window_
        buttons_ := cpp.bitOr v.buttons_ (cpp.shl 1 k)
        ui_queue := v.ui_queue ++ [UITask.dispatchPointer
          { time_stamp := env.now
            change := if v.buttons_ = 0 then Change.kDown else Change.kMove
            kind := DeviceKind.kMouse
            physical_x := env.cursor_x
            physical_y := env.cursor_y
            buttons := cpp.bitOr v.buttons_ (cpp.shl 1 k)
            pressure := Double.one
            pressure_max := Double.one }] } := by
  unfold OnMouseButtonChanged
  by_cases hb : v.buttons_ = 0 <;> simp [hb, PointerData.Clear]

theorem OnMouseButtonChanged_release (k : Nat) (mods : Int) (env : Reading)
    (v : PlatformViewGLFW) :
    OnMouseButtonChanged k GLFW_RELEASE mods env v =
      { v with
        glfw_window_ :=
          if cpp.bitAnd v.buttons_ (cpp.bitNot (cpp.shl 1 k)) = 0 then
            glfwSetCursorPosCallback v.glfw_window_ false
          else v.glfw_window_
        buttons_ := cpp.bitAnd v.buttons_ (cpp.bitNot (cpp.shl 1 k))
        ui_queue := v.ui_queue ++ [UITask.dispatchPointer
          { time_stamp := env.now
            change :=
              if cpp.bitAnd v.buttons_ (cpp.bitNot (cpp.shl 1 k)) = 0 then Change.kUp
              else Change.kMove
            kind := DeviceKind.kMouse
            physical_x := env.cursor_x
            physical_y := env.cursor_y
            buttons := cpp.bitAnd v.buttons_ (cpp.bitNot (cpp.shl 1 k))
            pressure := Double.one
            pressure_max := Double.one }] } := by
  unfold OnMouseButtonChanged
  have hne : GLFW_RELEASE ≠ GLFW_PRESS := by decide
  by_cases hb : cpp.bitAnd v.buttons_ (cpp.bitNot (cpp.shl 1 k)) = 0 <;>
    simp [hb, hne, PointerData.Clear]

theorem OnMouseButtonChanged_other (k : Nat) (action mods : Int) (env : Reading)
    (v : PlatformViewGLFW) (h1 : action ≠ GLFW_PRESS) (h2 : action ≠ GLFW_RELEASE) :
    OnMouseButtonChanged k action mods env v = v := by
  unfold OnMouseButtonChanged
  simp [h1, h2]

/-- Every handled event appends exactly one task, a pointer sample built from
that event. -/
theorem handle_posts_one (i : Input) (v : PlatformViewGLFW) (hh : i.handled = true) :
    ∃ pd, (handle i v).ui_queue = v.ui_queue ++ [UITask.dispatchPointer pd] ∧
      pd.builtFrom i := by
  obtain ⟨event, env⟩ := i
  cases event with
  | cursorPos x y =>
    exact ⟨_, rfl, rfl, rfl, rfl⟩
  | mouseButton button action mods =>
    simp only [Input.handled, Bool.or_eq_true, beq_iff_eq] at hh
    rcases hh with ha | ha
    · subst ha
      simp only [handle]
      rw [OnMouseButtonChanged_press]
      exact ⟨_, rfl, rfl, rfl, rfl⟩
    · subst ha
      simp only [handle]
      rw [OnMouseButtonChanged_release]
      exact ⟨_, rfl, rfl, rfl, rfl⟩

theorem drain_dispatchPointer (posted : List PointerData) :
    drain true (posted.map UITask.dispatchPointer) =
      posted.map (fun pd => EngineCall.DispatchPointerDataPacket [pd]) := by
  induction posted with
  | nil => rfl
  | cons pd rest ih =>
    simp only [drain, List.map_cons, List.flatMap_cons] at ih ⊢
    rw [ih]
    rfl

theorem handleAll_posts (inputs : List Input) (v : PlatformViewGLFW)
    (hh : ∀ i ∈ inputs, i.handled = true) :
    ∃ posted : List PointerData,
      (handleAll v inputs).ui_queue = v.ui_queue ++ posted.map UITask.dispatchPointer ∧
      List.Forall₂ PointerData.builtFrom posted inputs := by
  induction inputs generalizing v with
  | nil => exact ⟨[], by simp [handleAll], List.Forall₂.nil⟩
  | cons i rest ih =>
    obtain ⟨pd, hq, hb⟩ := handle_posts_one i v (hh i (List.mem_cons_self _ _))
    obtain ⟨posted, hq2, hf⟩ := ih (handle i v) (fun j hj => hh j (List.mem_cons_of_mem _ hj))
    refine ⟨pd :: posted, ?_, List.Forall₂.cons hb hf⟩
    simp only [handleAll, List.foldl_cons] at hq2 ⊢
    rw [hq2, hq]
    simp

theorem glfwDeliver_mouseButton (v : PlatformViewGLFW) (g : GLFWwindow)
    (hw : v.glfw_window_ = some g) (hm : g.mouse_button_callback = true)
    (button : Nat) (action mods : Int) (env : Reading) :
    glfwDeliver v ⟨NativeEvent.mouseButton button action mods, env⟩ =
      OnMouseButtonChanged button action mods env v := by
  simp [glfwDeliver, handle, hw, hm]

theorem glfwDeliver_cursorPos (v : PlatformViewGLFW) (g : GLFWwindow)
    (hw : v.glfw_window_ = some g) (hc : g.cursor_pos_callback = true)
    (x y : Double) (env : Reading) :
    glfwDeliver v ⟨NativeEvent.cursorPos x y, env⟩ = OnCursorPosChanged x y env v := by
  simp [glfwDeliver, handle, hw, hc]

theorem glfwDeliverAll_cons (v : PlatformViewGLFW) (i : Input) (rest : List Input) :
    glfwDeliverAll v (i :: rest) = glfwDeliverAll (glfwDeliver v i) rest := rfl

theorem glfwDeliverAll_nil (v : PlatformViewGLFW) : glfwDeliverAll v [] = v := rfl

theorem drain_cons (pd : PointerData) (rest : List UITask) :
    drain true (UITask.dispatchPointer pd :: rest) =
      EngineCall.DispatchPointerDataPacket [pd] :: drain true rest := rfl

theorem drain_nil : drain true [] = [] := rfl

/-- The scenario of the specification: press, move, release of one button on
a freshly constructed view. -/
theorem press_move_release (k : Nat) (hk : k ≤ 7) (mods1 mods2 : Int) (x y : Double)
    (env1 env2 env3 : Reading) :
    (drain true (glfwDeliverAll (PlatformViewGLFW.new true true)
      [⟨NativeEvent.mouseButton k GLFW_PRESS mods1, env1⟩,
        ⟨NativeEvent.cursorPos x y, env2⟩,
        ⟨NativeEvent.mouseButton k GLFW_RELEASE mods2, env3⟩]).ui_queue).map
          EngineCall.changes =
      [[Change.kDown], [Change.kMove], [Change.kUp]] := by
  have h2 := press_then_release k hk
  have hnew : PlatformViewGLFW.new true true =
      { valid_ := true
        glfw_window_ := some ⟨true, true, true, false⟩
        buttons_ := 0
        ui_queue := [] } := by
    simp [PlatformViewGLFW.new]
  have e1 := glfwDeliver_mouseButton (PlatformViewGLFW.new true true)
    ⟨true, true, true, false⟩ (by rw [hnew]) rfl k GLFW_PRESS mods1 env1
  rw [OnMouseButtonChanged_press] at e1
  have b0 : (PlatformViewGLFW.new true true).buttons_ = 0 := by rw [hnew]
  have q0 : (PlatformViewGLFW.new true true).ui_queue = [] := by rw [hnew]
  have w0 : (PlatformViewGLFW.new true true).glfw_window_ =
      some ⟨true, true, true, false⟩ := by
    rw [hnew]
  simp only [b0, q0, w0, if_true, glfwSetCursorPosCallback, Option.map_some',
    List.nil_append] at e1
  have e2 := glfwDeliver_cursorPos _ ⟨true, true, true, true⟩
    (congrArg PlatformViewGLFW.glfw_window_ e1) rfl x y env2
  conv_rhs at e2 => rw [e1]
  simp only [OnCursorPosChanged] at e2
  have e3 := glfwDeliver_mouseButton _ ⟨true, true, true, true⟩
    (congrArg PlatformViewGLFW.glfw_window_ e2) rfl k GLFW_RELEASE mods2 env3
  conv_rhs at e3 => rw [OnMouseButtonChanged_release, e2]
  simp only [h2, if_true] at e3
  rw [glfwDeliverAll_cons, glfwDeliverAll_cons, glfwDeliverAll_cons, glfwDeliverAll_nil, e3]
  simp only [List.cons_append, List.nil_append, drain_cons, drain_nil, List.map_cons,
    List.map_nil, EngineCall.changes]

/-- C7: the handlers neither merge nor reorder pointer input.  For every view
and every sequence of handled events (button presses and releases, cursor
moves) the `UI` queue grows by exactly one task per event, in the order of the
events, each task holding a sample built from its own event (its time stamp
and position); run in queue order with the engine alive, each task dispatches
one packet holding exactly that one sample.  On a freshly constructed view a
press, a move and the release of the same button reach the engine as three
packets: down, move, up. -/
theorem pointer_events_not_coalesced (v : PlatformViewGLFW) (inputs : List Input)
    (hh : ∀ i ∈ inputs, i.handled = true) :
    ∃ posted : List PointerData,
      (handleAll v inputs).ui_queue = v.ui_queue ++ posted.map UITask.dispatchPointer ∧
      posted.length = inputs.length ∧
      List.Forall₂ PointerData.builtFrom posted inputs ∧
      drain true (posted.map UITask.dispatchPointer) =
        posted.map (fun pd => EngineCall.DispatchPointerDataPacket [pd]) ∧
      ∀ (k : Nat) (mods1 mods2 : Int) (x y : Double) (env1 env2 env3 : Reading), k ≤ 7 →
        (drain true (glfwDeliverAll (PlatformViewGLFW.new true true)
          [⟨NativeEvent.mouseButton k GLFW_PRESS mods1, env1⟩,
            ⟨NativeEvent.cursorPos x y, env2⟩,
            ⟨NativeEvent.mouseButton k GLFW_RELEASE mods2, env3⟩]).ui_queue).map
              EngineCall.changes =
          [[Change.kDown], [Change.kMove], [Change.kUp]] := by
  obtain ⟨posted, hq, hf⟩ := handleAll_posts inputs v hh
  exact ⟨posted, hq, hf.length_eq, hf, drain_dispatchPointer posted,
    fun k mods1 mods2 x y env1 env2 env3 hk =>
      press_move_release k hk mods1 mods2 x y env1 env2 env3⟩

/-- Witness for C7: press, move, release of button 0. -/
theorem pointer_events_not_coalesced_witness :
    (∀ i ∈ pressMoveRelease, i.handled = true) ∧
    ∃ posted : List PointerData,
      (handleAll (PlatformViewGLFW.new true true) pressMoveRelease).ui_queue =
        (PlatformViewGLFW.new true true).ui_queue ++ posted.map UITask.dispatchPointer ∧
      posted.length = pressMoveRelease.length :=
  ⟨by decide,
    (pointer_events_not_coalesced (PlatformViewGLFW.new true true) pressMoveRelease
      (by decide)).imp (fun _ h => ⟨h.1, h.2.1⟩)⟩

/-! ### The mouse state machine -/

theorem cursorRegistered_set (v : PlatformViewGLFW) (g : GLFWwindow)
    (hw : v.glfw_window_ = some g) (r : Bool) (b : Int) (q : List UITask) :
    cursorRegistered
      { v with
        glfw_window_ := glfwSetCursorPosCallback v.glfw_window_ r
        buttons_ := b
        ui_queue := q } = r := by
  simp [cursorRegistered, glfwSetCursorPosCallback, hw]

/-- One delivered event keeps "registered exactly when a button is held". -/
theorem glfwDeliver_keeps (v : PlatformViewGLFW) (i : Input)
    (hk : i.buttonInRange = true)
    (hinv : cursorRegistered v = true ↔ v.buttons_ ≠ 0) :
    cursorRegistered (glfwDeliver v i) = true ↔ (glfwDeliver v i).buttons_ ≠ 0 := by
  obtain ⟨event, env⟩ := i
  unfold glfwDeliver
  cases hw : v.glfw_window_ with
  | none => exact hinv
  | some g =>
    cases event with
    | cursorPos x y =>
      simp only
      by_cases hc : g.cursor_pos_callback = true
      · simp only [hc, if_true, handle, OnCursorPosChanged]
        exact hinv
      · simp only [hc]
        exact hinv
    | mouseButton button action mods =>
      simp only [Input.buttonInRange, decide_eq_true_eq] at hk
      simp only
      by_cases hm : g.mouse_button_callback = true
      · simp only [hm, if_true, handle]
        by_cases hp : action = GLFW_PRESS
        · subst hp
          rw [OnMouseButtonChanged_press]
          have hne := bitOr_shl_ne_zero v.buttons_ button hk
          by_cases hb : v.buttons_ = 0
          · simp only [hb, if_true]
            have := cursorRegistered_set v g hw true (cpp.bitOr 0 (cpp.shl 1 button))
              (v.ui_queue ++ [UITask.dispatchPointer
                { time_stamp := env.now, change := Change.kDown, kind := DeviceKind.kMouse,
                  physical_x := env.cursor_x, physical_y := env.cursor_y,
                  buttons := cpp.bitOr 0 (cpp.shl 1 button), pressure := Double.one,
                  pressure_max := Double.one }])
            rw [hb] at hne
            simp only [this, true_iff]
            exact hne
          · simp only [hb, if_false]
            have hreg : cursorRegistered v = true := hinv.mpr hb
            constructor
            · intro _
              exact hne
            · intro _
              simpa [cursorRegistered] using hreg
        · by_cases hr : action = GLFW_RELEASE
          · subst hr
            rw [OnMouseButtonChanged_release]
            by_cases hz : cpp.bitAnd v.buttons_ (cpp.bitNot (cpp.shl 1 button)) = 0
            · simp only [hz, if_true]
              have := cursorRegistered_set v g hw false 0
                (v.ui_queue ++ [UITask.dispatchPointer
                  { time_stamp := env.now, change := Change.kUp, kind := DeviceKind.kMouse,
                    physical_x := env.cursor_x, physical_y := env.cursor_y,
                    buttons := 0, pressure := Double.one, pressure_max := Double.one }])
              simp [this]
            · simp only [hz, if_false]
              have hb : v.buttons_ ≠ 0 := by
                intro hb
                rw [hb] at hz
                exact hz (bitAnd_zero_left _)
              have hreg : cursorRegistered v = true := hinv.mpr hb
              constructor
              · intro _
                exact hz
              · intro _
                simpa [cursorRegistered] using hreg
          · rw [OnMouseButtonChanged_other button action mods env v hp hr]
            exact hinv
      · simp only [hm]
        exact hinv

theorem glfwDeliverAll_keeps (inputs : List Input) (v : PlatformViewGLFW)
    (hk : ∀ i ∈ inputs, i.buttonInRange = true)
    (hinv : cursorRegistered v = true ↔ v.buttons_ ≠ 0) :
    cursorRegistered (glfwDeliverAll v inputs) = true ↔
      (glfwDeliverAll v inputs).buttons_ ≠ 0 := by
  induction inputs generalizing v with
  | nil => exact hinv
  | cons i rest ih =>
    exact ih (glfwDeliver v i) (fun j hj => hk j (List.mem_cons_of_mem _ hj))
      (glfwDeliver_keeps v i (hk i (List.mem_cons_self _ _)) hinv)

/-- C9: a constructed view has `buttons_ = 0` and no cursor-position
callback; after every sequence of delivered events whose button indices are
in `0..7` the callback is registered exactly when `buttons_` is non-zero; so a
cursor move either finds no callback and changes nothing, or reaches
`OnCursorPosChanged`, which posts one `kMove` sample whose `buttons` is not 0. -/
theorem cursor_callback_iff_buttons (glfwInit glfwCreateWindow : Bool)
    (inputs : List Input) (hk : ∀ i ∈ inputs, i.buttonInRange = true) :
    (PlatformViewGLFW.new glfwInit glfwCreateWindow).buttons_ = 0 ∧
    cursorRegistered (PlatformViewGLFW.new glfwInit glfwCreateWindow) = false ∧
    (cursorRegistered
        (glfwDeliverAll (PlatformViewGLFW.new glfwInit glfwCreateWindow) inputs) = true ↔
      (glfwDeliverAll (PlatformViewGLFW.new glfwInit glfwCreateWindow) inputs).buttons_ ≠ 0) ∧
    ∀ (x y : Double) (env : Reading),
      (cursorRegistered
          (glfwDeliverAll (PlatformViewGLFW.new glfwInit glfwCreateWindow) inputs) = false →
        glfwDeliver (glfwDeliverAll (PlatformViewGLFW.new glfwInit glfwCreateWindow) inputs)
            ⟨NativeEvent.cursorPos x y, env⟩ =
          glfwDeliverAll (PlatformViewGLFW.new glfwInit glfwCreateWindow) inputs) ∧
      (cursorRegistered
          (glfwDeliverAll (PlatformViewGLFW.new glfwInit glfwCreateWindow) inputs) = true →
        glfwDeliver (glfwDeliverAll (PlatformViewGLFW.new glfwInit glfwCreateWindow) inputs)
            ⟨NativeEvent.cursorPos x y, env⟩ =
          OnCursorPosChanged x y env
            (glfwDeliverAll (PlatformViewGLFW.new glfwInit glfwCreateWindow) inputs) ∧
        ∃ pd, (OnCursorPosChanged x y env
              (glfwDeliverAll (PlatformViewGLFW.new glfwInit glfwCreateWindow) inputs)).ui_queue =
            (glfwDeliverAll (PlatformViewGLFW.new glfwInit glfwCreateWindow) inputs).ui_queue ++
              [UITask.dispatchPointer pd] ∧
          pd.change = Change.kMove ∧ pd.buttons ≠ 0) := by
  have h0 : (PlatformViewGLFW.new glfwInit glfwCreateWindow).buttons_ = 0 := by
    cases glfwInit <;> cases glfwCreateWindow <;> rfl
  have h1 : cursorRegistered (PlatformViewGLFW.new glfwInit glfwCreateWindow) = false := by
    cases glfwInit <;> cases glfwCreateWindow <;> rfl
  have hinv := glfwDeliverAll_keeps inputs (PlatformViewGLFW.new glfwInit glfwCreateWindow) hk
    (by rw [h0, h1]; simp)
  refine ⟨h0, h1, hinv, ?_⟩
  intro x y env
  generalize glfwDeliverAll (PlatformViewGLFW.new glfwInit glfwCreateWindow) inputs = v at hinv ⊢
  constructor
  · intro hreg
    unfold glfwDeliver
    cases hw : v.glfw_window_ with
    | none => rfl
    | some g =>
      have : g.cursor_pos_callback = false := by simpa [cursorRegistered, hw] using hreg
      simp [this]
  · intro hreg
    refine ⟨?_, _, rfl, rfl, hinv.mp hreg⟩
    unfold glfwDeliver
    cases hw : v.glfw_window_ with
    | none => simp [cursorRegistered, hw] at hreg
    | some g =>
      have : g.cursor_pos_callback = true := by simpa [cursorRegistered, hw] using hreg
      simp [this, handle]

/-- Witness for C9: two buttons pressed and released in turn. -/
theorem cursor_callback_iff_buttons_witness :
    (∀ i ∈ twoButtons, i.buttonInRange = true) ∧
    (cursorRegistered (glfwDeliverAll (PlatformViewGLFW.new true true) twoButtons) = true ↔
      (glfwDeliverAll (PlatformViewGLFW.new true true) twoButtons).buttons_ ≠ 0) :=
  ⟨by decide, (cursor_callback_iff_buttons true true twoButtons (by decide)).2.2.1⟩

/-! ### Downs and ups alternate -/

theorem changes_append_dispatch (q : List UITask) (pd : PointerData) :
    changes (q ++ [UITask.dispatchPointer pd]) = changes q ++ [pd.change] := by
  simp [changes, samples, List.filterMap_append]

theorem scan_append (a b : List Change) (d : Bool) :
    scan d (a ++ b) = (scan d a).bind (fun f => scan f b) := by
  induction a generalizing d with
  | nil => rfl
  | cons c rest ih =>
    cases c <;> cases d <;> simp [scan, ih]

/-- After a `kDown`, a second `kDown` is only accepted once a `kUp` has been
read. -/
theorem scan_second_down (b c : List Change) (f : Bool)
    (h : scan true (b ++ Change.kDown :: c) = some f) : Change.kUp ∈ b := by
  induction b with
  | nil => simp [scan] at h
  | cons x rest ih =>
    cases x with
    | kUp => exact List.mem_cons_self _ _
    | kDown => simp [scan] at h
    | kCancel => exact List.mem_cons_of_mem _ (ih (by simpa [scan] using h))
    | kMove => exact List.mem_cons_of_mem _ (ih (by simpa [scan] using h))

theorem scan_after_down (a rest : List Change) (d f : Bool)
    (h : scan d (a ++ Change.kDown :: rest) = some f) : scan true rest = some f := by
  rw [scan_append] at h
  cases hd : scan d a with
  | none => simp [hd] at h
  | some g =>
    cases g <;> simp [hd, scan] at h
    exact h

/-- A sequence of changes that `scan` accepts has a `kUp` between any two
`kDown`. -/
theorem up_between_downs (cs : List Change) (d f : Bool) (h : scan d cs = some f)
    (a b c : List Change) (hcs : cs = a ++ Change.kDown :: (b ++ Change.kDown :: c)) :
    Change.kUp ∈ b := by
  subst hcs
  exact scan_second_down b c f (scan_after_down a _ d f h)

/-- One handler call keeps the reading of the queue in step with the mask:
the memory bit of `scan` is set exactly when a button is held. -/
theorem handle_scan (i : Input) (v : PlatformViewGLFW) (hk : i.buttonInRange = true)
    (h : scan false (changes v.ui_queue) = some (decide (v.buttons_ ≠ 0))) :
    scan false (changes (handle i v).ui_queue) =
      some (decide ((handle i v).buttons_ ≠ 0)) := by
  obtain ⟨event, env⟩ := i
  cases event with
  | cursorPos x y =>
    simp only [handle, OnCursorPosChanged]
    rw [changes_append_dispatch, scan_append, h]
    cases decide (v.buttons_ ≠ 0) <;> rfl
  | mouseButton button action mods =>
    simp only [Input.buttonInRange, decide_eq_true_eq] at hk
    simp only [handle]
    by_cases hp : action = GLFW_PRESS
    · subst hp
      simp only [OnMouseButtonChanged_press]
      rw [changes_append_dispatch, scan_append, h]
      have hne := bitOr_shl_ne_zero v.buttons_ button hk
      by_cases hb : v.buttons_ = 0
      · simp [hb, scan, hne] at hne ⊢
        exact hne
      · simp [hb, scan, hne]
    · by_cases hr : action = GLFW_RELEASE
      · subst hr
        simp only [OnMouseButtonChanged_release]
        rw [changes_append_dispatch, scan_append, h]
        by_cases hz : cpp.bitAnd v.buttons_ (cpp.bitNot (cpp.shl 1 button)) = 0
        · cases decide (v.buttons_ ≠ 0) <;> simp [hz, scan]
        · have hb : v.buttons_ ≠ 0 := by
            intro hb
            rw [hb] at hz
            exact hz (bitAnd_zero_left _)
          simp [hz, hb, scan]
      · simp only [OnMouseButtonChanged_other button action mods env v hp hr]
        exact h

theorem handleAll_scan (inputs : List Input) (v : PlatformViewGLFW)
    (hk : ∀ i ∈ inputs, i.buttonInRange = true)
    (h : scan false (changes v.ui_queue) = some (decide (v.buttons_ ≠ 0))) :
    scan false (changes (handleAll v inputs).ui_queue) =
      some (decide ((handleAll v inputs).buttons_ ≠ 0)) := by
  induction inputs generalizing v with
  | nil => exact h
  | cons i rest ih =>
    exact ih (handle i v) (fun j hj => hk j (List.mem_cons_of_mem _ hj))
      (handle_scan i v (hk i (List.mem_cons_self _ _)) h)

/-- C10: starting from `buttons_ = 0` and an empty queue, after every sequence
of handler calls with button indices in `0..7` the changes of the posted
samples never hold two `kDown` without a `kUp` between them.  For each
`OnMouseButtonChanged` call: a sample reporting `kDown` is posted only when no
button was held, and the mask is non-zero afterwards; and when the mask goes
from non-zero to zero the call posts a sample reporting `kUp`. -/
theorem no_two_downs_without_up (v : PlatformViewGLFW) (inputs : List Input)
    (hb : v.buttons_ = 0) (hq : v.ui_queue = [])
    (hk : ∀ i ∈ inputs, i.buttonInRange = true) :
    (∀ a b c : List Change,
      changes (handleAll v inputs).ui_queue = a ++ Change.kDown :: (b ++ Change.kDown :: c) →
        Change.kUp ∈ b) ∧
    (∀ (u : PlatformViewGLFW) (k : Nat) (action mods : Int) (env : Reading), k ≤ 7 →
      (∀ pd, (OnMouseButtonChanged k action mods env u).ui_queue =
            u.ui_queue ++ [UITask.dispatchPointer pd] →
          pd.change = Change.kDown →
          u.buttons_ = 0 ∧ (OnMouseButtonChanged k action mods env u).buttons_ ≠ 0) ∧
      (u.buttons_ ≠ 0 → (OnMouseButtonChanged k action mods env u).buttons_ = 0 →
        ∃ pd, (OnMouseButtonChanged k action mods env u).ui_queue =
            u.ui_queue ++ [UITask.dispatchPointer pd] ∧
          pd.change = Change.kUp)) := by
  constructor
  · intro a b c hcs
    have hs := handleAll_scan inputs v hk (by rw [hq, hb]; rfl)
    exact up_between_downs _ _ _ hs a b c hcs
  · intro u k action mods env hk7
    have hne := bitOr_shl_ne_zero u.buttons_ k hk7
    by_cases hp : action = GLFW_PRESS
    · subst hp
      rw [OnMouseButtonChanged_press]
      constructor
      · intro pd hpd hchange
        simp only at hpd
        have hpd2 := List.append_cancel_left hpd
        simp only [List.cons.injEq, UITask.dispatchPointer.injEq, and_true] at hpd2
        subst hpd2
        simp only at hchange
        by_cases hu : u.buttons_ = 0
        · exact ⟨hu, hne⟩
        · simp [hu] at hchange
      · intro _ hz
        exact absurd hz hne
    · by_cases hr : action = GLFW_RELEASE
      · subst hr
        rw [OnMouseButtonChanged_release]
        constructor
        · intro pd hpd hchange
          simp only at hpd
          have hpd2 := List.append_cancel_left hpd
          simp only [List.cons.injEq, UITask.dispatchPointer.injEq, and_true] at hpd2
          subst hpd2
          simp only at hchange
          by_cases hz : cpp.bitAnd u.buttons_ (cpp.bitNot (cpp.shl 1 k)) = 0 <;>
            simp [hz] at hchange
        · intro _ hz
          simp only at hz
          exact ⟨_, rfl, by simp only [hz, if_true]⟩
      · rw [OnMouseButtonChanged_other k action mods env u hp hr]
        constructor
        · intro pd hpd _
          have := congrArg List.length hpd
          simp at this
        · intro h1 h2
          exact absurd h2 h1

/-- Witness for C10: two buttons pressed and released in turn on a fresh
view. -/
theorem no_two_downs_without_up_witness :
    (PlatformViewGLFW.new true true).buttons_ = 0 ∧
    (PlatformViewGLFW.new true true).ui_queue = [] ∧
    (∀ i ∈ twoButtons, i.buttonInRange = true) ∧
    ∀ a b c : List Change,
      changes (handleAll (PlatformViewGLFW.new true true) twoButtons).ui_queue =
          a ++ Change.kDown :: (b ++ Change.kDown :: c) →
        Change.kUp ∈ b :=
  ⟨rfl, rfl, by decide,
    (no_two_downs_without_up (PlatformViewGLFW.new true true) twoButtons rfl rfl
      (by decide)).1⟩

end shell
